import Mathlib

/-!
# EventLoop (src/EventLoop.cpp): a shallow embedding and its contract

The reactor core of the repository is the class `EventLoop`.  This file embeds the
member functions of `src/EventLoop.cpp` as Lean functions over an explicit loop state
and proves (or evaluates) the properties the specification states about them.

Modelling conventions.

* The loop state is the record `EventLoop` below; its fields carry the names of the C++
  members.  The members `freeConnectionIndex_` and `tcpContext_` are never read or written
  by any function of `EventLoop.cpp` after construction and are left out.
* Every call that leaves the class (poller, channel handler, pending functor, the write on
  the wakeup descriptor) is appended to the field `trace`, so that the order and the number
  of such calls can be stated.
* Callbacks (channel handlers and pending functors) are external code.  They are modelled as
  finite scripts (`Cmd`) over the member functions through which a callback acts on the
  flags, the queue and the poller of its loop: `queueInLoop`, `runInLoop`, `quit`,
  `updateChannel`, `removeChannel`.  Scripts do not call the timer functions or `loop()`.
* `assert(e)` is modelled as process termination when `e` is false (`Run.aborted`), that is
  the build is taken without `NDEBUG`.
* `isInLoopThread()` and `assertInLoopThread()` are declared in `EventLoop.h`, which is not
  among the sources; they are modelled from the specification, which makes every call of a
  guarded member function from a thread other than the owning one fatal.
* The calling thread is an explicit argument `tid` (the value of `CurrentThread::tid()`).
* `poller_->poll` is external: the lists of ready channels it reports, one per call, are an
  argument of `loop`.  When that argument is exhausted the loop has cleared its scratch list
  and is inside a call of `poll` that has not returned (`Run.blocked`).
-/

namespace Reactor

/-! ## Data model -/

/-- A `Channel*` as the loop sees it: its address and the value of `ownerLoop()`. -/
structure ChannelPtr where
  addr : Nat
  ownerLoop : Nat
deriving DecidableEq, Repr

/-- The script of a callback: the member functions of its loop that it calls, in order.
`queueInLoop id cb rest` calls `queueInLoop` with a functor of identity `id` and script `cb`
and then continues with `rest`; likewise for the other constructors. -/
inductive Cmd where
  | done : Cmd
  | queueInLoop (id : Nat) (cb : Cmd) (rest : Cmd) : Cmd
  | runInLoop (id : Nat) (cb : Cmd) (rest : Cmd) : Cmd
  | quit (rest : Cmd) : Cmd
  | updateChannel (channel : ChannelPtr) (rest : Cmd) : Cmd
  | removeChannel (channel : ChannelPtr) (rest : Cmd) : Cmd
deriving DecidableEq, Repr

/-- A `Functor` (`std::function<void()>`) of the pending queue: an identity and a script. -/
structure PendingFunctor where
  id : Nat
  body : Cmd
deriving DecidableEq, Repr

/-- An element of `activeChannels_`: the channel and the script of its `handleEvent()`. -/
structure Channel where
  ptr : ChannelPtr
  handleEvent : Cmd
deriving DecidableEq, Repr

/-- Calls that leave the class, in the order they are made. -/
inductive Event where
  | poll : Event
  | handleEvent (addr : Nat) : Event
  | runFunctor (id : Nat) : Event
  | runInline (id : Nat) : Event
  | wakeupWrite : Event
  | pollerUpdate (addr : Nat) : Event
  | pollerRemove (addr : Nat) : Event
deriving DecidableEq, Repr

/-- A `double` that the loop only passes on: its bit pattern. -/
structure Double where
  bits : Nat
deriving DecidableEq, Repr

/-- The literal `0.0`. -/
def Double.zero : Double := ⟨0⟩

/-- A `Timestamp` (declared outside `EventLoop.cpp`): a point in time as an integer count
of clock units. -/
abbrev Timestamp := Int

/-- Modelled from the spec: a timer held by the timer engine. -/
structure Timer where
  cb : PendingFunctor
  when : Timestamp
  interval : Double
  sequence : Nat
deriving DecidableEq, Repr

/-- Modelled from the spec: the opaque handle returned by the timer engine, the sequence
number of the timer. -/
structure TimerId where
  sequence : Nat
deriving DecidableEq, Repr

/-- Modelled from the spec: the class `TimerQueue` is not part of `EventLoop.cpp`.  The spec
gives it as the owner of the scheduled timers, each with a deadline, a repeat interval, a
callback and a monotonic sequence number used as identity. -/
structure TimerQueue where
  timers : List Timer
  nextSequence : Nat
deriving DecidableEq, Repr

/-- Modelled from the spec: `TimerQueue::addTimer(callback, deadline, repeatInterval)`
schedules the timer and returns its identity. -/
def TimerQueue.addTimer (q : TimerQueue) (cb : PendingFunctor) (when : Timestamp)
    (interval : Double) : TimerId × TimerQueue :=
  (⟨q.nextSequence⟩,
   { timers := q.timers ++ [⟨cb, when, interval, q.nextSequence⟩],
     nextSequence := q.nextSequence + 1 })

/-- The state of one `EventLoop` object. -/
structure EventLoop where
  self : Nat
  looping_ : Bool
  eventHandling_ : Bool
  quit_ : Bool
  callingPendingFunctors_ : Bool
  wakeupFd_ : Int
  threadId_ : Nat
  currentActiveChannel_ : Option Nat
  activeChannels_ : List Channel
  pendingFunctors_ : List PendingFunctor
  timerQueue_ : TimerQueue
  trace : List Event
deriving DecidableEq, Repr

/-- How a call ends: it returns, an assertion terminates the process, or (for `loop` only)
the loop is still waiting in `poll`. -/
inductive Run where
  | ok (s : EventLoop) : Run
  | aborted (s : EventLoop) : Run
  | blocked (s : EventLoop) : Run
deriving DecidableEq, Repr

/-- Sequencing: continue only after a normal return. -/
def Run.bind : Run → (EventLoop → Run) → Run
  | Run.ok s, f => f s
  | Run.aborted s, _ => Run.aborted s
  | Run.blocked s, _ => Run.blocked s

/-- The state a run ended in. -/
def Run.state : Run → EventLoop
  | Run.ok s => s
  | Run.aborted s => s
  | Run.blocked s => s

/-! ## Member functions -/

namespace EventLoop

/-- Modelled from the spec: `isInLoopThread()` is declared in `EventLoop.h`; it compares the
owning-thread identity with the identity of the calling thread. -/
def isInLoopThread (s : EventLoop) (tid : Nat) : Bool :=
  s.threadId_ == tid

/-- `abortNotInLoopThread()`: its body holds two comments and no statement, and no
function of `EventLoop.cpp` calls it. -/
def abortNotInLoopThread (s : EventLoop) : EventLoop := s

/-- Modelled from the spec: `assertInLoopThread()` is declared in `EventLoop.h`, which is not
among the sources.  The spec names it the assertion helper and makes a call of a guarded
member function from a thread other than the owning one fatal. -/
def assertInLoopThread (s : EventLoop) (tid : Nat) : Run :=
  if s.isInLoopThread tid then Run.ok s else Run.aborted s

/-- `wakeup()`: one write on the wakeup descriptor; a short write is only logged. -/
def wakeup (s : EventLoop) : EventLoop :=
  { s with trace := s.trace ++ [Event.wakeupWrite] }

/-- `queueInLoop(cb)`. -/
def queueInLoop (tid : Nat) (cb : PendingFunctor) (s : EventLoop) : EventLoop :=
  let s1 := { s with pendingFunctors_ := s.pendingFunctors_ ++ [cb] }
  if !s1.isInLoopThread tid || s1.callingPendingFunctors_ then s1.wakeup else s1

/-- `quit()`. -/
def quit (tid : Nat) (s : EventLoop) : EventLoop :=
  let s1 := { s with quit_ := true }
  if !s1.isInLoopThread tid then s1.wakeup else s1

/-- `updateChannel(channel)`. -/
def updateChannel (tid : Nat) (channel : ChannelPtr) (s : EventLoop) : Run :=
  if channel.ownerLoop = s.self then
    (s.assertInLoopThread tid).bind fun s1 =>
      Run.ok { s1 with trace := s1.trace ++ [Event.pollerUpdate channel.addr] }
  else Run.aborted s

/-- `removeChannel(channel)`. -/
def removeChannel (tid : Nat) (channel : ChannelPtr) (s : EventLoop) : Run :=
  if channel.ownerLoop = s.self then
    (s.assertInLoopThread tid).bind fun s1 =>
      if s1.eventHandling_ = true ∧
          ¬ (s1.currentActiveChannel_ = some channel.addr ∨
              channel.addr ∉ s1.activeChannels_.map (fun c => c.ptr.addr)) then
        Run.aborted s1
      else
        Run.ok { s1 with trace := s1.trace ++ [Event.pollerRemove channel.addr] }
  else Run.aborted s

/-- The call `cb()` of a callback with script `c` on thread `tid`.  The case `runInLoop` is
the body of `runInLoop` itself (see `runInLoop` below). -/
def exec (tid : Nat) : Cmd → EventLoop → Run
  | Cmd.done, s => Run.ok s
  | Cmd.queueInLoop id cb rest, s => exec tid rest (s.queueInLoop tid ⟨id, cb⟩)
  | Cmd.runInLoop id cb rest, s =>
      (if s.isInLoopThread tid then
        exec tid cb { s with trace := s.trace ++ [Event.runInline id] }
      else
        Run.ok (s.queueInLoop tid ⟨id, cb⟩)).bind (exec tid rest)
  | Cmd.quit rest, s => exec tid rest (s.quit tid)
  | Cmd.updateChannel channel rest, s => (s.updateChannel tid channel).bind (exec tid rest)
  | Cmd.removeChannel channel rest, s => (s.removeChannel tid channel).bind (exec tid rest)

/-- `runInLoop(cb)`. -/
def runInLoop (tid : Nat) (cb : PendingFunctor) (s : EventLoop) : Run :=
  if s.isInLoopThread tid then
    exec tid cb.body { s with trace := s.trace ++ [Event.runInline cb.id] }
  else
    Run.ok (s.queueInLoop tid cb)

/-- The `for` loop of `doPendingFunctors()` over the local vector `functors`. -/
def runFunctors (tid : Nat) : List PendingFunctor → EventLoop → Run
  | [], s => Run.ok s
  | f :: rest, s =>
      (exec tid f.body { s with trace := s.trace ++ [Event.runFunctor f.id] }).bind
        (runFunctors tid rest)

/-- `doPendingFunctors()`. -/
def doPendingFunctors (tid : Nat) (s : EventLoop) : Run :=
  let s1 := { s with callingPendingFunctors_ := true }
  let functors := s1.pendingFunctors_
  let s2 := { s1 with pendingFunctors_ := [] }
  (runFunctors tid functors s2).bind fun s3 =>
    Run.ok { s3 with callingPendingFunctors_ := false }

/-- The `for` loop of `loop()` over `activeChannels_`. -/
def dispatch (tid : Nat) : List Channel → EventLoop → Run
  | [], s => Run.ok s
  | ch :: rest, s =>
      (exec tid ch.handleEvent
        { s with currentActiveChannel_ := some ch.ptr.addr,
                 trace := s.trace ++ [Event.handleEvent ch.ptr.addr] }).bind
        (dispatch tid rest)

/-- The part of one iteration of `loop()` before `doPendingFunctors()`: clear the scratch
list, `poll` (which reports `ready`), dispatch, leave event-handling mode. -/
def handleActive (tid : Nat) (ready : List Channel) (s : EventLoop) : Run :=
  let s1 := { s with activeChannels_ := [] }
  let s2 := { s1 with activeChannels_ := ready, trace := s1.trace ++ [Event.poll] }
  let s3 := { s2 with eventHandling_ := true }
  (dispatch tid s3.activeChannels_ s3).bind fun s4 =>
    Run.ok { s4 with currentActiveChannel_ := none, eventHandling_ := false }

/-- One iteration of the `while` loop of `loop()`. -/
def iteration (tid : Nat) (ready : List Channel) (s : EventLoop) : Run :=
  (handleActive tid ready s).bind (doPendingFunctors tid)

/-- The `while(!quit_)` loop of `loop()` and the statement after it; `polls` holds what the
successive calls of `poll` report.  When `polls` is used up and the quitting flag is clear,
the loop has cleared `activeChannels_` and called `poll`, which has not returned. -/
def whileNotQuit (tid : Nat) : List (List Channel) → EventLoop → Run
  | [], s =>
      if s.quit_ then Run.ok { s with looping_ := false }
      else Run.blocked { s with activeChannels_ := [], trace := s.trace ++ [Event.poll] }
  | ready :: more, s =>
      if s.quit_ then Run.ok { s with looping_ := false }
      else (iteration tid ready s).bind (whileNotQuit tid more)

/-- `loop()`. -/
def loop (tid : Nat) (polls : List (List Channel)) (s : EventLoop) : Run :=
  if s.looping_ then Run.aborted s
  else
    (s.assertInLoopThread tid).bind fun s1 =>
      let s2 := { s1 with looping_ := true }
      whileNotQuit tid polls s2

/-- `runAt(time, cb)`. -/
def runAt (time : Timestamp) (cb : PendingFunctor) (s : EventLoop) : TimerId × EventLoop :=
  let r := s.timerQueue_.addTimer cb time Double.zero
  (r.1, { s with timerQueue_ := r.2 })

/-- `runAfter(delay, cb)`; `now` is the value of `Timestamp::now()` and `addTime` the
function of that name from `Timestamp.h`. -/
def runAfter (now : Timestamp) (addTime : Timestamp → Double → Timestamp)
    (delay : Double) (cb : PendingFunctor) (s : EventLoop) : TimerId × EventLoop :=
  let time := addTime now delay
  s.runAt time cb

/-- `runEvery(interval, cb)`. -/
def runEvery (now : Timestamp) (addTime : Timestamp → Double → Timestamp)
    (interval : Double) (cb : PendingFunctor) (s : EventLoop) : TimerId × EventLoop :=
  let time := addTime now interval
  let r := s.timerQueue_.addTimer cb time interval
  (r.1, { s with timerQueue_ := r.2 })

end EventLoop

/-! ## Construction and destruction -/

/-- The per-thread context of the file: the identity of the thread, the thread-local
`t_loopInThisThread` (`none` is the null pointer) and the loops constructed on the thread
and not yet destroyed. -/
structure ThreadCtx where
  tid : Nat
  t_loopInThisThread : Option Nat
  live : List EventLoop
deriving DecidableEq, Repr

/-- `createEventfd()`: `evtfd` is what `::eventfd` returns; a negative value aborts. -/
def createEventfd (evtfd : Int) : Option Int :=
  if evtfd < 0 then none else some evtfd

/-- The member initialiser list of `EventLoop::EventLoop()`. -/
def EventLoop.init (this tid : Nat) (fd : Int) : EventLoop :=
  { self := this, looping_ := false, eventHandling_ := false, quit_ := false,
    callingPendingFunctors_ := false, wakeupFd_ := fd, threadId_ := tid,
    currentActiveChannel_ := none, activeChannels_ := [], pendingFunctors_ := [],
    timerQueue_ := ⟨[], 0⟩, trace := [] }

/-- Modelled from the spec: `Channel::enableReading()` is not part of `EventLoop.cpp`; it
registers the channel for read-readiness with its owner loop, which is a call of
`updateChannel` on that loop. -/
def Channel.enableReading (tid : Nat) (channel : ChannelPtr) (s : EventLoop) : Run :=
  s.updateChannel tid channel

/-- Modelled from the spec: `Channel::disableAll()` followed by `Channel::remove()` are not
part of `EventLoop.cpp`; they clear the interest set through `updateChannel` and then
unregister the channel through `removeChannel`. -/
def Channel.disableAllAndRemove (tid : Nat) (channel : ChannelPtr) (s : EventLoop) : Run :=
  (s.updateChannel tid channel).bind (EventLoop.removeChannel tid channel)

/-- `EventLoop::EventLoop()` run on the thread of `ctx` for a new object at address `this`,
whose wakeup channel is at address `wakeupChannel`; `none` is the abort of
`createEventfd()`. -/
def construct (this : Nat) (evtfd : Int) (wakeupChannel : Nat) (ctx : ThreadCtx) :
    Option ThreadCtx :=
  match createEventfd evtfd with
  | none => none
  | some fd =>
    let s := EventLoop.init this ctx.tid fd
    let ctx1 :=
      if ctx.t_loopInThisThread.isSome then ctx
      else { ctx with t_loopInThisThread := some this }
    match Channel.enableReading ctx.tid ⟨wakeupChannel, this⟩ s with
    | Run.ok s1 => some { ctx1 with live := ctx1.live ++ [s1] }
    | _ => none

/-- `EventLoop::~EventLoop()` run on the thread of `ctx` for the live object `s`, whose
wakeup channel is at address `wakeupChannel`; `none` is a failed assertion. -/
def destroy (s : EventLoop) (wakeupChannel : Nat) (ctx : ThreadCtx) : Option ThreadCtx :=
  if s.looping_ then none
  else
    match Channel.disableAllAndRemove ctx.tid ⟨wakeupChannel, s.self⟩ s with
    | Run.ok _ => some { ctx with t_loopInThisThread := none, live := ctx.live.erase s }
    | _ => none

/-! ## Observations on the trace -/

/-- The address of a `handleEvent()` call. -/
def Event.handledAddr : Event → Option Nat
  | Event.handleEvent a => some a
  | _ => none

/-- The identity of a functor called by `doPendingFunctors()`. -/
def Event.drainedId : Event → Option Nat
  | Event.runFunctor i => some i
  | _ => none

/-- The identity of a functor called inline by `runInLoop()`. -/
def Event.inlinedId : Event → Option Nat
  | Event.runInline i => some i
  | _ => none

/-- The channels whose `handleEvent()` was called, in call order. -/
def handled (tr : List Event) : List Nat := tr.filterMap Event.handledAddr

/-- The functors called by `doPendingFunctors()`, in call order. -/
def drained (tr : List Event) : List Nat := tr.filterMap Event.drainedId

/-- The functors called inline by `runInLoop()`, in call order. -/
def inlined (tr : List Event) : List Nat := tr.filterMap Event.inlinedId

/-- The number of writes on the wakeup descriptor. -/
def wakeups (tr : List Event) : Nat := tr.count Event.wakeupWrite

/-- The number of calls of `poller_->poll`. -/
def pollCalls (tr : List Event) : Nat := tr.count Event.poll

/-- The state at the top of the next iteration once the `while` loop of `loop()`, started in
`s`, has run one full iteration for each readiness report of `polls`, the quitting flag
being clear at the top of each of them; `none` when the loop ends earlier. -/
def topAfter (tid : Nat) : List (List Channel) → EventLoop → Option EventLoop
  | [], s => some s
  | ready :: more, s =>
      if s.quit_ then none
      else
        match EventLoop.iteration tid ready s with
        | Run.ok s1 => topAfter tid more s1
        | _ => none

/-- The functors a callback script enqueues when it runs on the owning thread, in enqueue
order (a functor handed to `runInLoop` there runs inline, so what it enqueues counts). -/
def enqueued : Cmd → List PendingFunctor
  | Cmd.done => []
  | Cmd.queueInLoop id cb rest => ⟨id, cb⟩ :: enqueued rest
  | Cmd.runInLoop _ cb rest => enqueued cb ++ enqueued rest
  | Cmd.quit rest => enqueued rest
  | Cmd.updateChannel _ rest => enqueued rest
  | Cmd.removeChannel _ rest => enqueued rest

/-- The functors enqueued by a list of functors run in order on the owning thread. -/
def enqueuedBy : List PendingFunctor → List PendingFunctor
  | [] => []
  | f :: rest => enqueued f.body ++ enqueuedBy rest

/-- A script none of whose calls can trip an assertion: it never calls `updateChannel` or
`removeChannel`, and neither does any functor it hands to the loop. -/
def Cmd.assertFree : Cmd → Bool
  | Cmd.done => true
  | Cmd.queueInLoop _ cb rest => cb.assertFree && rest.assertFree
  | Cmd.runInLoop _ cb rest => cb.assertFree && rest.assertFree
  | Cmd.quit rest => rest.assertFree
  | Cmd.updateChannel _ _ => false
  | Cmd.removeChannel _ _ => false

/-- Every functor in the queue has an assertion-free script. -/
def QueueAssertFree (s : EventLoop) : Prop :=
  ∀ f ∈ s.pendingFunctors_, f.body.assertFree = true

/-- An extension of the trace in which no handler and no pending functor is called and the
poller is not asked for readiness. -/
def Quiet (ext : List Event) : Prop :=
  handled ext = [] ∧ drained ext = [] ∧ pollCalls ext = 0

/-- What a callback, a dispatch or a drain loop may do to the loop state: the identity, the
owning thread, the flags other than `quit_` and the scratch list stay, `quit_` is never
reset, and the trace only grows at its end, by `ext`. -/
structure Step (ext : List Event) (s t : EventLoop) : Prop where
  self : t.self = s.self
  threadId : t.threadId_ = s.threadId_
  calling : t.callingPendingFunctors_ = s.callingPendingFunctors_
  looping : t.looping_ = s.looping_
  handling : t.eventHandling_ = s.eventHandling_
  active : t.activeChannels_ = s.activeChannels_
  quitMono : s.quit_ = true → t.quit_ = true
  trace : t.trace = s.trace ++ ext

/-! ## Concrete states used to instantiate the theorems -/

/-- A freshly constructed loop at address 1, owned by thread 7, wakeup descriptor 3. -/
def demoLoop : EventLoop := EventLoop.init 1 7 3

/-- A functor that enqueues functor 6 and then asks the loop to quit. -/
def demoFunctor : PendingFunctor :=
  ⟨5, Cmd.queueInLoop 6 Cmd.done (Cmd.quit Cmd.done)⟩

/-- A channel of loop 1 whose handler asks the loop to quit. -/
def chanA : Channel := ⟨⟨10, 1⟩, Cmd.quit Cmd.done⟩

/-- A channel of loop 1 whose handler enqueues functor 6. -/
def chanB : Channel := ⟨⟨11, 1⟩, Cmd.queueInLoop 6 Cmd.done Cmd.done⟩

/-- The ready list of the example iteration. -/
def demoReady : List Channel := [chanA, chanB]

/-- The loop before `loop()` is called, with functor 5 queued; functor 5 enqueues
functor 7. -/
def demoQueued : EventLoop :=
  { demoLoop with pendingFunctors_ := [⟨5, Cmd.queueInLoop 7 Cmd.done Cmd.done⟩] }

/-- The same loop at the top of its first iteration. -/
def demoRunning : EventLoop := { demoQueued with looping_ := true }

/-- The loop in the middle of dispatching `demoReady`, inside the handler of `chanA`. -/
def demoDispatching : EventLoop :=
  { demoRunning with eventHandling_ := true, activeChannels_ := demoReady,
                     currentActiveChannel_ := some 10,
                     trace := [Event.poll, Event.handleEvent 10] }

/-- The loop after the dispatch of `demoReady`, before the drain. -/
def demoMid : EventLoop :=
  { demoRunning with
    quit_ := true, activeChannels_ := demoReady,
    pendingFunctors_ := [⟨5, Cmd.queueInLoop 7 Cmd.done Cmd.done⟩, ⟨6, Cmd.done⟩],
    trace := [Event.poll, Event.handleEvent 10, Event.handleEvent 11] }

/-- The loop after the drain of the example iteration. -/
def demoAfter : EventLoop :=
  { demoMid with
    pendingFunctors_ := [⟨7, Cmd.done⟩],
    trace := [Event.poll, Event.handleEvent 10, Event.handleEvent 11, Event.runFunctor 5,
              Event.wakeupWrite, Event.runFunctor 6] }

/-- The loop after `loop()` has returned. -/
def demoStopped : EventLoop := { demoAfter with looping_ := false }

/-- The loop at the top of its second iteration, after a first iteration in which only
`chanB` was ready: functors 5 and 6 have run and functor 7 is queued. -/
def demoTop2 : EventLoop :=
  { demoRunning with
    activeChannels_ := [chanB], pendingFunctors_ := [⟨7, Cmd.done⟩],
    trace := [Event.poll, Event.handleEvent 11, Event.runFunctor 5, Event.wakeupWrite,
              Event.runFunctor 6] }

/-- The loop after the dispatch of `demoReady` in that second iteration. -/
def demoMid2 : EventLoop :=
  { demoTop2 with
    quit_ := true, activeChannels_ := demoReady,
    pendingFunctors_ := [⟨7, Cmd.done⟩, ⟨6, Cmd.done⟩],
    trace := demoTop2.trace ++ [Event.poll, Event.handleEvent 10, Event.handleEvent 11] }

/-- The loop after the drain of that second iteration. -/
def demoAfter2 : EventLoop :=
  { demoMid2 with
    pendingFunctors_ := [],
    trace := demoMid2.trace ++ [Event.runFunctor 7, Event.runFunctor 6] }

/-- A thread with no loop yet. -/
def demoCtx : ThreadCtx := { tid := 7, t_loopInThisThread := none, live := [] }

/-! ## Helper lemmas -/

theorem handled_append (a b : List Event) : handled (a ++ b) = handled a ++ handled b := by
  simp [handled]

theorem drained_append (a b : List Event) : drained (a ++ b) = drained a ++ drained b := by
  simp [drained]

theorem inlined_append (a b : List Event) : inlined (a ++ b) = inlined a ++ inlined b := by
  simp [inlined]

theorem wakeups_append (a b : List Event) : wakeups (a ++ b) = wakeups a + wakeups b := by
  simp [wakeups]

theorem pollCalls_append (a b : List Event) : pollCalls (a ++ b) = pollCalls a + pollCalls b := by
  simp [pollCalls]

/-- On the owning thread the thread check passes. -/
theorem assertInLoopThread_in (s : EventLoop) (tid : Nat) (h : s.isInLoopThread tid = true) :
    s.assertInLoopThread tid = Run.ok s := by
  simp [EventLoop.assertInLoopThread, h]

/-- On any other thread the thread check ends the process in the state of the call. -/
theorem assertInLoopThread_out (s : EventLoop) (tid : Nat)
    (h : s.isInLoopThread tid = false) : s.assertInLoopThread tid = Run.aborted s := by
  simp [EventLoop.assertInLoopThread, h]

theorem Step.refl (s : EventLoop) : Step [] s s :=
  ⟨rfl, rfl, rfl, rfl, rfl, rfl, fun h => h, by simp⟩

theorem Step.trans {e1 e2 : List Event} {s t u : EventLoop}
    (h1 : Step e1 s t) (h2 : Step e2 t u) : Step (e1 ++ e2) s u :=
  ⟨h2.self.trans h1.self, h2.threadId.trans h1.threadId, h2.calling.trans h1.calling,
   h2.looping.trans h1.looping, h2.handling.trans h1.handling, h2.active.trans h1.active,
   fun h => h2.quitMono (h1.quitMono h), by rw [h2.trace, h1.trace, List.append_assoc]⟩

theorem Quiet.nil : Quiet [] := by simp [Quiet, handled, drained, pollCalls]

theorem Quiet.append {a b : List Event} (ha : Quiet a) (hb : Quiet b) : Quiet (a ++ b) := by
  obtain ⟨a1, a2, a3⟩ := ha
  obtain ⟨b1, b2, b3⟩ := hb
  exact ⟨by rw [handled_append, a1, b1]; rfl, by rw [drained_append, a2, b2]; rfl,
    by rw [pollCalls_append, a3, b3]⟩

theorem Quiet.wakeupWrite : Quiet [Event.wakeupWrite] := by
  simp [Quiet, handled, drained, pollCalls, Event.handledAddr, Event.drainedId]

theorem Quiet.pollerUpdate (a : Nat) : Quiet [Event.pollerUpdate a] := by
  simp [Quiet, handled, drained, pollCalls, Event.handledAddr, Event.drainedId]

theorem Quiet.pollerRemove (a : Nat) : Quiet [Event.pollerRemove a] := by
  simp [Quiet, handled, drained, pollCalls, Event.handledAddr, Event.drainedId]

theorem Quiet.runInline (i : Nat) : Quiet [Event.runInline i] := by
  simp [Quiet, handled, drained, pollCalls, Event.handledAddr, Event.drainedId]

theorem queueInLoop_step (tid : Nat) (cb : PendingFunctor) (s : EventLoop) :
    ∃ ext, Quiet ext ∧ Step ext s (s.queueInLoop tid cb) := by
  unfold EventLoop.queueInLoop
  dsimp only
  split
  · exact ⟨[Event.wakeupWrite], Quiet.wakeupWrite, ⟨rfl, rfl, rfl, rfl, rfl, rfl, fun h => h, rfl⟩⟩
  · exact ⟨[], Quiet.nil, ⟨rfl, rfl, rfl, rfl, rfl, rfl, fun h => h, by simp⟩⟩

theorem quit_step (tid : Nat) (s : EventLoop) :
    ∃ ext, Quiet ext ∧ Step ext s (s.quit tid) := by
  unfold EventLoop.quit
  dsimp only
  split
  · exact ⟨[Event.wakeupWrite], Quiet.wakeupWrite, ⟨rfl, rfl, rfl, rfl, rfl, rfl, fun _ => rfl, rfl⟩⟩
  · exact ⟨[], Quiet.nil, ⟨rfl, rfl, rfl, rfl, rfl, rfl, fun _ => rfl, by simp⟩⟩

theorem updateChannel_step (tid : Nat) (ch : ChannelPtr) (s : EventLoop) :
    ∃ ext, Quiet ext ∧ Step ext s (s.updateChannel tid ch).state := by
  unfold EventLoop.updateChannel
  split
  · cases h : s.isInLoopThread tid
    · rw [assertInLoopThread_out s tid h]
      exact ⟨[], Quiet.nil, Step.refl s⟩
    · rw [assertInLoopThread_in s tid h]
      exact ⟨[Event.pollerUpdate ch.addr], Quiet.pollerUpdate _,
        ⟨rfl, rfl, rfl, rfl, rfl, rfl, fun h => h, rfl⟩⟩
  · exact ⟨[], Quiet.nil, Step.refl s⟩

theorem removeChannel_step (tid : Nat) (ch : ChannelPtr) (s : EventLoop) :
    ∃ ext, Quiet ext ∧ Step ext s (s.removeChannel tid ch).state := by
  unfold EventLoop.removeChannel
  split
  · cases h : s.isInLoopThread tid
    · rw [assertInLoopThread_out s tid h]
      exact ⟨[], Quiet.nil, Step.refl s⟩
    · rw [assertInLoopThread_in s tid h]
      simp only [Run.bind]
      split
      · exact ⟨[], Quiet.nil, Step.refl s⟩
      · exact ⟨[Event.pollerRemove ch.addr], Quiet.pollerRemove _,
          ⟨rfl, rfl, rfl, rfl, rfl, rfl, fun h => h, rfl⟩⟩
  · exact ⟨[], Quiet.nil, Step.refl s⟩

theorem log_step (e : Event) (s : EventLoop) :
    Step [e] s { s with trace := s.trace ++ [e] } :=
  ⟨rfl, rfl, rfl, rfl, rfl, rfl, fun h => h, rfl⟩

/-- Sequencing two runs that each satisfy a step property. -/
theorem bind_step {e1 : List Event} {s : EventLoop} {r : Run} {f : EventLoop → Run}
    (P : List Event → Prop) (hP : ∀ a b, P a → P b → P (a ++ b))
    (h1 : P e1 ∧ Step e1 s r.state)
    (h2 : ∀ t, ∃ e2, P e2 ∧ Step e2 t (f t).state) :
    ∃ e, P e ∧ Step e s (r.bind f).state := by
  cases r with
  | ok t =>
    obtain ⟨e2, p2, s2⟩ := h2 t
    exact ⟨e1 ++ e2, hP _ _ h1.1 p2, h1.2.trans s2⟩
  | aborted t => exact ⟨e1, h1.1, h1.2⟩
  | blocked t => exact ⟨e1, h1.1, h1.2⟩

/-- A callback only extends the trace quietly and keeps the frame of `Step`. -/
theorem exec_step (tid : Nat) (c : Cmd) :
    ∀ s : EventLoop, ∃ ext, Quiet ext ∧ Step ext s (EventLoop.exec tid c s).state := by
  induction c with
  | done => intro s; exact ⟨[], Quiet.nil, Step.refl s⟩
  | queueInLoop id cb rest _ ihr =>
    intro s
    simp only [EventLoop.exec]
    obtain ⟨e1, q1, s1⟩ := queueInLoop_step tid ⟨id, cb⟩ s
    obtain ⟨e2, q2, s2⟩ := ihr (s.queueInLoop tid ⟨id, cb⟩)
    exact ⟨e1 ++ e2, q1.append q2, s1.trans s2⟩
  | runInLoop id cb rest ihc ihr =>
    intro s
    simp only [EventLoop.exec]
    split
    · obtain ⟨e1, q1, s1⟩ := ihc { s with trace := s.trace ++ [Event.runInline id] }
      have h0 := log_step (Event.runInline id) s
      exact bind_step Quiet (fun _ _ => Quiet.append)
        ⟨Quiet.append (Quiet.runInline id) q1, h0.trans s1⟩ ihr
    · obtain ⟨e1, q1, s1⟩ := queueInLoop_step tid ⟨id, cb⟩ s
      exact bind_step (r := Run.ok _) Quiet (fun _ _ => Quiet.append) ⟨q1, s1⟩ ihr
  | quit rest ihr =>
    intro s
    simp only [EventLoop.exec]
    obtain ⟨e1, q1, s1⟩ := quit_step tid s
    obtain ⟨e2, q2, s2⟩ := ihr (s.quit tid)
    exact ⟨e1 ++ e2, q1.append q2, s1.trans s2⟩
  | updateChannel ch rest ihr =>
    intro s
    simp only [EventLoop.exec]
    obtain ⟨e1, q1, s1⟩ := updateChannel_step tid ch s
    exact bind_step Quiet (fun _ _ => Quiet.append) ⟨q1, s1⟩ ihr
  | removeChannel ch rest ihr =>
    intro s
    simp only [EventLoop.exec]
    obtain ⟨e1, q1, s1⟩ := removeChannel_step tid ch s
    exact bind_step Quiet (fun _ _ => Quiet.append) ⟨q1, s1⟩ ihr

theorem bind_eq_ok {r : Run} {f : EventLoop → Run} {u : EventLoop}
    (h : r.bind f = Run.ok u) : ∃ t, r = Run.ok t ∧ f t = Run.ok u := by
  cases r with
  | ok t => exact ⟨t, rfl, h⟩
  | aborted t => simp [Run.bind] at h
  | blocked t => simp [Run.bind] at h

/-- A callback that returns leaves a quiet extension of the trace. -/
theorem exec_ok_step {tid : Nat} {c : Cmd} {s t : EventLoop}
    (h : EventLoop.exec tid c s = Run.ok t) : ∃ ext, Quiet ext ∧ Step ext s t := by
  have := exec_step tid c s
  rw [h] at this
  exact this

/-- The dispatch loop calls the handlers of the list in order and no pending functor. -/
theorem dispatch_ok (tid : Nat) (chs : List Channel) :
    ∀ s t : EventLoop, EventLoop.dispatch tid chs s = Run.ok t →
      ∃ ext, Step ext s t ∧ handled ext = chs.map (fun c => c.ptr.addr) ∧
        drained ext = [] ∧ pollCalls ext = 0 := by
  induction chs with
  | nil =>
    intro s t h
    simp only [EventLoop.dispatch, Run.ok.injEq] at h
    subst h
    exact ⟨[], Step.refl s, rfl, rfl, rfl⟩
  | cons ch rest ih =>
    intro s t h
    simp only [EventLoop.dispatch] at h
    obtain ⟨u, hu, hrest⟩ := bind_eq_ok h
    obtain ⟨e1, ⟨q1, q2, q3⟩, s1⟩ := exec_ok_step hu
    obtain ⟨e2, s2, h2, d2, p2⟩ := ih u t hrest
    have s0 : Step [Event.handleEvent ch.ptr.addr] s
        { s with currentActiveChannel_ := some ch.ptr.addr,
                 trace := s.trace ++ [Event.handleEvent ch.ptr.addr] } :=
      ⟨rfl, rfl, rfl, rfl, rfl, rfl, fun h => h, rfl⟩
    refine ⟨([Event.handleEvent ch.ptr.addr] ++ e1) ++ e2, (s0.trans s1).trans s2, ?_, ?_, ?_⟩
    · rw [handled_append, handled_append, q1, h2]
      simp [handled, Event.handledAddr]
    · rw [drained_append, drained_append, q2, d2]
      simp [drained, Event.drainedId]
    · rw [pollCalls_append, pollCalls_append, q3, p2]
      simp [pollCalls]

/-- The drain loop calls the functors of the local vector in order and no handler. -/
theorem runFunctors_ok (tid : Nat) (fs : List PendingFunctor) :
    ∀ s t : EventLoop, EventLoop.runFunctors tid fs s = Run.ok t →
      ∃ ext, Step ext s t ∧ handled ext = [] ∧
        drained ext = fs.map (fun f => f.id) ∧ pollCalls ext = 0 := by
  induction fs with
  | nil =>
    intro s t h
    simp only [EventLoop.runFunctors, Run.ok.injEq] at h
    subst h
    exact ⟨[], Step.refl s, rfl, rfl, rfl⟩
  | cons f rest ih =>
    intro s t h
    simp only [EventLoop.runFunctors] at h
    obtain ⟨u, hu, hrest⟩ := bind_eq_ok h
    obtain ⟨e1, ⟨q1, q2, q3⟩, s1⟩ := exec_ok_step hu
    obtain ⟨e2, s2, h2, d2, p2⟩ := ih u t hrest
    have s0 := log_step (Event.runFunctor f.id) s
    refine ⟨([Event.runFunctor f.id] ++ e1) ++ e2, (s0.trans s1).trans s2, ?_, ?_, ?_⟩
    · rw [handled_append, handled_append, q1, h2]
      simp [handled, Event.handledAddr]
    · rw [drained_append, drained_append, q2, d2]
      simp [drained, Event.drainedId]
    · rw [pollCalls_append, pollCalls_append, q3, p2]
      simp [pollCalls]

/-- On the owning thread and inside the drain, a callback that returns has appended to the
queue exactly what its script enqueues, with one wakeup write for each. -/
theorem exec_enqueued (tid : Nat) (c : Cmd) :
    ∀ s t : EventLoop, s.isInLoopThread tid = true → s.callingPendingFunctors_ = true →
      EventLoop.exec tid c s = Run.ok t →
      t.pendingFunctors_ = s.pendingFunctors_ ++ enqueued c ∧
        wakeups t.trace = wakeups s.trace + (enqueued c).length := by
  induction c with
  | done =>
    intro s t _ _ h
    simp only [EventLoop.exec, Run.ok.injEq] at h
    subst h
    simp [enqueued]
  | queueInLoop id cb rest _ ihr =>
    intro s t hth hc h
    simp only [EventLoop.exec] at h
    have hq : s.queueInLoop tid ⟨id, cb⟩ =
        { s with pendingFunctors_ := s.pendingFunctors_ ++ [⟨id, cb⟩],
                 trace := s.trace ++ [Event.wakeupWrite] } := by
      simp [EventLoop.queueInLoop, EventLoop.isInLoopThread, EventLoop.wakeup, hc]
    rw [hq] at h
    obtain ⟨h1, h2⟩ := ihr _ t (by exact hth) (by exact hc) h
    refine ⟨by rw [h1]; simp [enqueued], ?_⟩
    rw [h2]
    simp [enqueued, wakeups]
    omega
  | runInLoop id cb rest ihc ihr =>
    intro s t hth hc h
    simp only [EventLoop.exec, hth, if_true] at h
    obtain ⟨u, hu, hrest⟩ := bind_eq_ok h
    obtain ⟨e1, _, s1⟩ := exec_ok_step hu
    obtain ⟨a1, a2⟩ := ihc _ u (by exact hth) (by exact hc) hu
    have hth2 : u.isInLoopThread tid = true := by
      simpa [EventLoop.isInLoopThread, s1.threadId] using hth
    have hc2 : u.callingPendingFunctors_ = true := by rw [s1.calling]; exact hc
    obtain ⟨b1, b2⟩ := ihr u t hth2 hc2 hrest
    refine ⟨by rw [b1, a1]; simp [enqueued], ?_⟩
    rw [b2, a2]
    simp [enqueued, wakeups]
    omega
  | quit rest ihr =>
    intro s t hth hc h
    simp only [EventLoop.exec] at h
    have hq : s.quit tid = { s with quit_ := true } := by
      simp only [EventLoop.isInLoopThread] at hth
      simp [EventLoop.quit, EventLoop.isInLoopThread, hth]
    rw [hq] at h
    obtain ⟨h1, h2⟩ := ihr _ t (by exact hth) (by exact hc) h
    exact ⟨by rw [h1]; simp [enqueued], by rw [h2]; simp [enqueued]⟩
  | updateChannel ch rest ihr =>
    intro s t hth hc h
    simp only [EventLoop.exec] at h
    obtain ⟨u, hu, hrest⟩ := bind_eq_ok h
    have hu2 : u = { s with trace := s.trace ++ [Event.pollerUpdate ch.addr] } := by
      unfold EventLoop.updateChannel at hu
      rw [assertInLoopThread_in s tid hth] at hu
      simp only [Run.bind] at hu
      split at hu
      · exact (Run.ok.inj hu).symm
      · simp at hu
    subst hu2
    obtain ⟨h1, h2⟩ := ihr _ t (by exact hth) (by exact hc) hrest
    exact ⟨by rw [h1]; simp [enqueued], by rw [h2]; simp [enqueued, wakeups]⟩
  | removeChannel ch rest ihr =>
    intro s t hth hc h
    simp only [EventLoop.exec] at h
    obtain ⟨u, hu, hrest⟩ := bind_eq_ok h
    have hu2 : u = { s with trace := s.trace ++ [Event.pollerRemove ch.addr] } := by
      unfold EventLoop.removeChannel at hu
      rw [assertInLoopThread_in s tid hth] at hu
      simp only [Run.bind] at hu
      split at hu
      · split at hu
        · simp at hu
        · exact (Run.ok.inj hu).symm
      · simp at hu
    subst hu2
    obtain ⟨h1, h2⟩ := ihr _ t (by exact hth) (by exact hc) hrest
    exact ⟨by rw [h1]; simp [enqueued], by rw [h2]; simp [enqueued, wakeups]⟩

/-- The drain loop on the owning thread leaves in the queue what its functors enqueue. -/
theorem runFunctors_enqueued (tid : Nat) (fs : List PendingFunctor) :
    ∀ s t : EventLoop, s.isInLoopThread tid = true → s.callingPendingFunctors_ = true →
      EventLoop.runFunctors tid fs s = Run.ok t →
      t.pendingFunctors_ = s.pendingFunctors_ ++ enqueuedBy fs ∧
        wakeups t.trace = wakeups s.trace + (enqueuedBy fs).length := by
  induction fs with
  | nil =>
    intro s t _ _ h
    simp only [EventLoop.runFunctors, Run.ok.injEq] at h
    subst h
    simp [enqueuedBy]
  | cons f rest ih =>
    intro s t hth hc h
    simp only [EventLoop.runFunctors] at h
    obtain ⟨u, hu, hrest⟩ := bind_eq_ok h
    obtain ⟨e1, _, s1⟩ := exec_ok_step hu
    obtain ⟨a1, a2⟩ := exec_enqueued tid f.body _ u (by exact hth) (by exact hc) hu
    have hth2 : u.isInLoopThread tid = true := by
      simpa [EventLoop.isInLoopThread, s1.threadId] using hth
    have hc2 : u.callingPendingFunctors_ = true := by rw [s1.calling]; exact hc
    obtain ⟨b1, b2⟩ := ih u t hth2 hc2 hrest
    refine ⟨by rw [b1, a1]; simp [enqueuedBy], ?_⟩
    rw [b2, a2]
    simp [enqueuedBy, wakeups]
    omega

/-! ## Callbacks that cannot trip an assertion -/

theorem queueInLoop_pending (tid : Nat) (cb : PendingFunctor) (s : EventLoop) :
    (s.queueInLoop tid cb).pendingFunctors_ = s.pendingFunctors_ ++ [cb] := by
  unfold EventLoop.queueInLoop
  dsimp only
  split <;> rfl

theorem quit_pending (tid : Nat) (s : EventLoop) :
    (s.quit tid).pendingFunctors_ = s.pendingFunctors_ := by
  unfold EventLoop.quit
  dsimp only
  split <;> rfl

theorem queueInLoop_assertFree {tid : Nat} {cb : PendingFunctor} {s : EventLoop}
    (hcb : cb.body.assertFree = true) (hs : QueueAssertFree s) :
    QueueAssertFree (s.queueInLoop tid cb) := by
  intro f hf
  rw [queueInLoop_pending] at hf
  rcases List.mem_append.mp hf with h | h
  · exact hs f h
  · rw [List.mem_singleton.mp h]; exact hcb

/-- An assertion-free callback returns, and leaves the queue assertion-free. -/
theorem exec_returns (tid : Nat) (c : Cmd) :
    ∀ s : EventLoop, c.assertFree = true → QueueAssertFree s →
      ∃ t, EventLoop.exec tid c s = Run.ok t ∧ QueueAssertFree t := by
  induction c with
  | done => intro s _ hs; exact ⟨s, rfl, hs⟩
  | queueInLoop id cb rest _ ihr =>
    intro s hc hs
    simp only [Cmd.assertFree, Bool.and_eq_true] at hc
    simp only [EventLoop.exec]
    exact ihr _ hc.2 (queueInLoop_assertFree (by exact hc.1) hs)
  | runInLoop id cb rest ihc ihr =>
    intro s hc hs
    simp only [Cmd.assertFree, Bool.and_eq_true] at hc
    simp only [EventLoop.exec]
    split
    · obtain ⟨u, hu, hq⟩ := ihc { s with trace := s.trace ++ [Event.runInline id] } hc.1 hs
      rw [hu]
      exact ihr u hc.2 hq
    · exact ihr _ hc.2 (queueInLoop_assertFree (by exact hc.1) hs)
  | quit rest ihr =>
    intro s hc hs
    simp only [Cmd.assertFree] at hc
    simp only [EventLoop.exec]
    refine ihr _ hc ?_
    intro f hf
    rw [quit_pending] at hf
    exact hs f hf
  | updateChannel ch rest _ => intro s hc; simp [Cmd.assertFree] at hc
  | removeChannel ch rest _ => intro s hc; simp [Cmd.assertFree] at hc

theorem runFunctors_returns (tid : Nat) (fs : List PendingFunctor) :
    ∀ s : EventLoop, (∀ f ∈ fs, f.body.assertFree = true) → QueueAssertFree s →
      ∃ t, EventLoop.runFunctors tid fs s = Run.ok t ∧ QueueAssertFree t := by
  induction fs with
  | nil => intro s _ hs; exact ⟨s, rfl, hs⟩
  | cons f rest ih =>
    intro s hfs hs
    simp only [EventLoop.runFunctors]
    obtain ⟨u, hu, hq⟩ := exec_returns tid f.body
      { s with trace := s.trace ++ [Event.runFunctor f.id] }
      (hfs f (List.mem_cons_self _ _)) hs
    rw [hu]
    exact ih u (fun g hg => hfs g (List.mem_cons_of_mem _ hg)) hq

theorem dispatch_returns (tid : Nat) (chs : List Channel) :
    ∀ s : EventLoop, (∀ ch ∈ chs, ch.handleEvent.assertFree = true) → QueueAssertFree s →
      ∃ t, EventLoop.dispatch tid chs s = Run.ok t ∧ QueueAssertFree t := by
  induction chs with
  | nil => intro s _ hs; exact ⟨s, rfl, hs⟩
  | cons ch rest ih =>
    intro s hch hs
    simp only [EventLoop.dispatch]
    obtain ⟨u, hu, hq⟩ := exec_returns tid ch.handleEvent
      { s with currentActiveChannel_ := some ch.ptr.addr,
               trace := s.trace ++ [Event.handleEvent ch.ptr.addr] }
      (hch ch (List.mem_cons_self _ _)) hs
    rw [hu]
    exact ih u (fun g hg => hch g (List.mem_cons_of_mem _ hg)) hq

/-- The drain returns when the queued functors are assertion-free. -/
theorem doPendingFunctors_returns (tid : Nat) (s : EventLoop) (hs : QueueAssertFree s) :
    ∃ t, s.doPendingFunctors tid = Run.ok t := by
  unfold EventLoop.doPendingFunctors
  dsimp only
  obtain ⟨u, hu, _⟩ := runFunctors_returns tid s.pendingFunctors_
    { s with callingPendingFunctors_ := true, pendingFunctors_ := [] } hs
    (fun f hf => by simp at hf)
  rw [hu]
  exact ⟨_, rfl⟩

/-- An iteration returns when handlers and queued functors are assertion-free. -/
theorem iteration_returns (tid : Nat) (ready : List Channel) (s : EventLoop)
    (hr : ∀ ch ∈ ready, ch.handleEvent.assertFree = true) (hs : QueueAssertFree s) :
    ∃ t, EventLoop.iteration tid ready s = Run.ok t := by
  unfold EventLoop.iteration EventLoop.handleActive
  dsimp only
  obtain ⟨u, hu, hq⟩ := dispatch_returns tid ready
    { s with activeChannels_ := ready, trace := s.trace ++ [Event.poll],
             eventHandling_ := true } hr hs
  rw [hu]
  exact doPendingFunctors_returns tid _ hq

/-! ## Task submission -/

/-- The `runInLoop` case of a script is the member function `runInLoop`. -/
theorem exec_runInLoop (tid id : Nat) (cb rest : Cmd) (s : EventLoop) :
    EventLoop.exec tid (Cmd.runInLoop id cb rest) s =
      (s.runInLoop tid ⟨id, cb⟩).bind (EventLoop.exec tid rest) := rfl

/-- The `queueInLoop` case of a script is the member function `queueInLoop`. -/
theorem exec_queueInLoop (tid id : Nat) (cb rest : Cmd) (s : EventLoop) :
    EventLoop.exec tid (Cmd.queueInLoop id cb rest) s =
      EventLoop.exec tid rest (s.queueInLoop tid ⟨id, cb⟩) := rfl

/-- The two outcomes of `queueInLoop`: with and without the wakeup write. -/
theorem queueInLoop_wakes (tid : Nat) (cb : PendingFunctor) (s : EventLoop)
    (h : s.isInLoopThread tid = false ∨ s.callingPendingFunctors_ = true) :
    s.queueInLoop tid cb =
      { s with pendingFunctors_ := s.pendingFunctors_ ++ [cb],
               trace := s.trace ++ [Event.wakeupWrite] } := by
  rcases h with h | h
  · simp only [EventLoop.isInLoopThread] at h
    simp [EventLoop.queueInLoop, EventLoop.wakeup, EventLoop.isInLoopThread, h]
  · simp [EventLoop.queueInLoop, EventLoop.wakeup, h]

theorem queueInLoop_silent (tid : Nat) (cb : PendingFunctor) (s : EventLoop)
    (h1 : s.isInLoopThread tid = true) (h2 : s.callingPendingFunctors_ = false) :
    s.queueInLoop tid cb = { s with pendingFunctors_ := s.pendingFunctors_ ++ [cb] } := by
  simp only [EventLoop.isInLoopThread] at h1
  simp [EventLoop.queueInLoop, EventLoop.isInLoopThread, h1, h2]

/-- C1: on the owning thread `runInLoop(cb)` is one inline call of `cb`, started in the
state of the caller with nothing appended to the queue and no wakeup write (so a `cb` that
does not touch the loop leaves only the record of its own call); on any other thread it is
`queueInLoop(cb)`, which calls no functor. -/
theorem runInLoop_contract (tid : Nat) (cb : PendingFunctor) (s : EventLoop) :
    (s.isInLoopThread tid = true →
      s.runInLoop tid cb =
          EventLoop.exec tid cb.body { s with trace := s.trace ++ [Event.runInline cb.id] } ∧
        (cb.body = Cmd.done →
          s.runInLoop tid cb =
            Run.ok { s with trace := s.trace ++ [Event.runInline cb.id] })) ∧
    (s.isInLoopThread tid = false →
      s.runInLoop tid cb = Run.ok (s.queueInLoop tid cb) ∧
        inlined (s.queueInLoop tid cb).trace = inlined s.trace ∧
        drained (s.queueInLoop tid cb).trace = drained s.trace) := by
  constructor
  · intro h
    have h1 : s.runInLoop tid cb =
        EventLoop.exec tid cb.body { s with trace := s.trace ++ [Event.runInline cb.id] } := by
      simp [EventLoop.runInLoop, h]
    refine ⟨h1, fun hd => ?_⟩
    rw [h1, hd]
    rfl
  · intro h
    refine ⟨by simp [EventLoop.runInLoop, h], ?_, ?_⟩
    · rw [queueInLoop_wakes tid cb s (Or.inl h)]
      simp [inlined, Event.inlinedId]
    · rw [queueInLoop_wakes tid cb s (Or.inl h)]
      simp [drained, Event.drainedId]

/-- Instance of C1: on `demoLoop` the owner thread 7 runs `demoFunctor` inline, thread 8
only enqueues it and writes a wakeup. -/
theorem runInLoop_contract_witness :
    demoLoop.runInLoop 7 demoFunctor =
        Run.ok { demoLoop with quit_ := true, pendingFunctors_ := [⟨6, Cmd.done⟩],
                               trace := [Event.runInline 5] } ∧
      demoLoop.runInLoop 8 demoFunctor =
        Run.ok { demoLoop with pendingFunctors_ := [demoFunctor],
                               trace := [Event.wakeupWrite] } :=
  ⟨((runInLoop_contract 7 demoFunctor demoLoop).1 (by decide)).1.trans (by decide),
   ((runInLoop_contract 8 demoFunctor demoLoop).2 (by decide)).1.trans (by decide)⟩

/-- C2: `queueInLoop(cb)` appends `cb` at the tail of the queue, calls no functor, changes
no other member, and writes one wakeup exactly when the caller is not the owning thread or
the loop is inside `doPendingFunctors()`. -/
theorem queueInLoop_contract (tid : Nat) (cb : PendingFunctor) (s : EventLoop) :
    s.queueInLoop tid cb =
        { s with
          pendingFunctors_ := s.pendingFunctors_ ++ [cb],
          trace :=
            if s.isInLoopThread tid = false ∨ s.callingPendingFunctors_ = true then
              s.trace ++ [Event.wakeupWrite]
            else s.trace } ∧
      inlined (s.queueInLoop tid cb).trace = inlined s.trace ∧
      drained (s.queueInLoop tid cb).trace = drained s.trace ∧
      (wakeups (s.queueInLoop tid cb).trace = wakeups s.trace + 1 ↔
        (s.isInLoopThread tid = false ∨ s.callingPendingFunctors_ = true)) ∧
      (wakeups (s.queueInLoop tid cb).trace = wakeups s.trace ↔
        (s.isInLoopThread tid = true ∧ s.callingPendingFunctors_ = false)) := by
  by_cases h : s.isInLoopThread tid = false ∨ s.callingPendingFunctors_ = true
  · rw [queueInLoop_wakes tid cb s h]
    refine ⟨by simp [h], ?_, ?_, ?_, ?_⟩
    · simp [inlined, Event.inlinedId]
    · simp [drained, Event.drainedId]
    · simp [wakeups, h]
    · simp only [wakeups, List.count_append]
      constructor
      · intro h2; simp at h2
      · rintro ⟨h1, h2⟩
        rcases h with h | h <;> simp_all
  · have h1 : s.isInLoopThread tid = true := by
      cases hh : s.isInLoopThread tid
      · exact absurd (Or.inl hh) h
      · rfl
    have h2 : s.callingPendingFunctors_ = false := by
      cases hh : s.callingPendingFunctors_
      · rfl
      · exact absurd (Or.inr hh) h
    rw [queueInLoop_silent tid cb s h1 h2]
    refine ⟨by simp [h], rfl, rfl, ?_, ?_⟩
    · simp [h1, h2]
    · simp [h1, h2]

/-! ## One iteration of the loop -/

/-- What the first half of an iteration leaves when it returns. -/
theorem handleActive_ok {tid : Nat} {ready : List Channel} {s m : EventLoop}
    (h : EventLoop.handleActive tid ready s = Run.ok m) :
    ∃ hs, m.trace = s.trace ++ Event.poll :: hs ∧
      handled hs = ready.map (fun c => c.ptr.addr) ∧ drained hs = [] ∧ pollCalls hs = 0 ∧
      (s.quit_ = true → m.quit_ = true) ∧ m.looping_ = s.looping_ ∧
      m.threadId_ = s.threadId_ ∧ m.eventHandling_ = false ∧
      m.currentActiveChannel_ = none := by
  unfold EventLoop.handleActive at h
  dsimp only at h
  obtain ⟨u, hu, hm⟩ := bind_eq_ok h
  obtain ⟨ext, st, h1, h2, h3⟩ := dispatch_ok tid ready _ u hu
  have hm2 := (Run.ok.inj hm).symm
  subst hm2
  refine ⟨ext, ?_, h1, h2, h3, ?_, ?_, ?_, rfl, rfl⟩
  · have := st.trace
    simp only at this ⊢
    rw [this]
    simp
  · exact fun hq => st.quitMono hq
  · exact st.looping
  · exact st.threadId

/-- What `doPendingFunctors()` leaves when it returns. -/
theorem doPendingFunctors_ok {tid : Nat} {m t : EventLoop}
    (h : m.doPendingFunctors tid = Run.ok t) :
    ∃ ds, t.trace = m.trace ++ ds ∧ handled ds = [] ∧
      drained ds = m.pendingFunctors_.map (fun f => f.id) ∧ pollCalls ds = 0 ∧
      (m.quit_ = true → t.quit_ = true) ∧ t.looping_ = m.looping_ ∧
      t.threadId_ = m.threadId_ ∧ t.callingPendingFunctors_ = false := by
  unfold EventLoop.doPendingFunctors at h
  dsimp only at h
  obtain ⟨u, hu, ht⟩ := bind_eq_ok h
  obtain ⟨ext, st, h1, h2, h3⟩ := runFunctors_ok tid _ _ u hu
  have ht2 := (Run.ok.inj ht).symm
  subst ht2
  exact ⟨ext, st.trace, h1, h2, h3, fun hq => st.quitMono hq, st.looping, st.threadId, rfl⟩

/-- On the owning thread `doPendingFunctors()` leaves in the queue what was enqueued during
the pass, with one wakeup write for each. -/
theorem doPendingFunctors_enqueued {tid : Nat} {m t : EventLoop}
    (hth : m.isInLoopThread tid = true) (h : m.doPendingFunctors tid = Run.ok t) :
    t.pendingFunctors_ = enqueuedBy m.pendingFunctors_ ∧
      wakeups t.trace = wakeups m.trace + (enqueuedBy m.pendingFunctors_).length := by
  unfold EventLoop.doPendingFunctors at h
  dsimp only at h
  obtain ⟨u, hu, ht⟩ := bind_eq_ok h
  obtain ⟨a1, a2⟩ := runFunctors_enqueued tid _ _ u (by exact hth) (by rfl) hu
  have ht2 := (Run.ok.inj ht).symm
  subst ht2
  exact ⟨by simpa using a1, a2⟩

/-- C3: an iteration of `loop()` returns whenever no handler and no queued functor can trip
an assertion, and every iteration that returns has first polled, then called `handleEvent()`
on every ready channel once, in list order, with no pending functor called up to the return
of the last handler, and only then, in the single call of `doPendingFunctors()`, called
every functor that is in the queue at that moment once, in queue order, with no handler
called in between. -/
theorem iteration_order (tid : Nat) (ready : List Channel) (s : EventLoop) :
    ((∀ ch ∈ ready, ch.handleEvent.assertFree = true) → QueueAssertFree s →
        ∃ t, EventLoop.iteration tid ready s = Run.ok t) ∧
    ∀ t, EventLoop.iteration tid ready s = Run.ok t →
      ∃ (m : EventLoop) (hs ds : List Event),
        EventLoop.handleActive tid ready s = Run.ok m ∧
        m.doPendingFunctors tid = Run.ok t ∧
        m.trace = s.trace ++ Event.poll :: hs ∧
        t.trace = m.trace ++ ds ∧
        handled hs = ready.map (fun c => c.ptr.addr) ∧ drained hs = [] ∧
        handled ds = [] ∧ drained ds = m.pendingFunctors_.map (fun f => f.id) := by
  refine ⟨iteration_returns tid ready s, ?_⟩
  intro t h
  unfold EventLoop.iteration at h
  obtain ⟨m, hm, ht⟩ := bind_eq_ok h
  obtain ⟨hs, a1, a2, a3, _⟩ := handleActive_ok hm
  obtain ⟨ds, b1, b2, b3, _⟩ := doPendingFunctors_ok ht
  exact ⟨m, hs, ds, hm, ht, a1, b1, a2, a3, b2, b3⟩

/-- Instance of C3: the example iteration, in which the handler of the first channel calls
`quit()` and the handler of the second enqueues functor 6 behind the queued functor 5. -/
theorem iteration_order_witness :
    (∃ t, EventLoop.iteration 7 demoReady demoRunning = Run.ok t) ∧
      EventLoop.iteration 7 demoReady demoRunning = Run.ok demoAfter ∧
      ∃ (m : EventLoop) (hs ds : List Event),
        EventLoop.handleActive 7 demoReady demoRunning = Run.ok m ∧
        m.doPendingFunctors 7 = Run.ok demoAfter ∧
        m.trace = demoRunning.trace ++ Event.poll :: hs ∧
        demoAfter.trace = m.trace ++ ds ∧
        handled hs = demoReady.map (fun c => c.ptr.addr) ∧ drained hs = [] ∧
        handled ds = [] ∧ drained ds = m.pendingFunctors_.map (fun f => f.id) :=
  ⟨(iteration_order 7 demoReady demoRunning).1 (by decide) (by unfold QueueAssertFree; decide),
   by decide, (iteration_order 7 demoReady demoRunning).2 demoAfter (by decide)⟩

/-- C4: a pass of `doPendingFunctors()` on the owning thread returns whenever no queued
functor can trip an assertion, and every pass that returns has called exactly the functors
that were in the queue when it started; every functor enqueued during the pass is still in
the queue when the pass returns, in enqueue order, and nothing else is; each of these
enqueues wrote a wakeup; the flag is false again at the end. -/
theorem drain_defers_new_functors (tid : Nat) (s : EventLoop)
    (hth : s.isInLoopThread tid = true) :
    (QueueAssertFree s → ∃ t, s.doPendingFunctors tid = Run.ok t) ∧
    ∀ t, s.doPendingFunctors tid = Run.ok t →
      t.pendingFunctors_ = enqueuedBy s.pendingFunctors_ ∧
      drained t.trace = drained s.trace ++ s.pendingFunctors_.map (fun f => f.id) ∧
      wakeups t.trace = wakeups s.trace + t.pendingFunctors_.length ∧
      t.callingPendingFunctors_ = false := by
  refine ⟨doPendingFunctors_returns tid s, ?_⟩
  intro t h
  obtain ⟨a1, a2⟩ := doPendingFunctors_enqueued hth h
  obtain ⟨ds, b1, _, b3, _, _, _, _, b8⟩ := doPendingFunctors_ok h
  refine ⟨a1, ?_, ?_, b8⟩
  · rw [b1, drained_append, b3]
  · rw [a2, a1]

/-- Instance of C4: the drain of the example iteration calls functors 5 and 6; functor 7,
enqueued by functor 5 during the pass, is what the queue holds afterwards. -/
theorem drain_defers_new_functors_witness :
    demoMid.isInLoopThread 7 = true ∧ demoMid.doPendingFunctors 7 = Run.ok demoAfter ∧
      (demoAfter.pendingFunctors_ = enqueuedBy demoMid.pendingFunctors_ ∧
        drained demoAfter.trace =
          drained demoMid.trace ++ demoMid.pendingFunctors_.map (fun f => f.id) ∧
        wakeups demoAfter.trace = wakeups demoMid.trace + demoAfter.pendingFunctors_.length ∧
        demoAfter.callingPendingFunctors_ = false) :=
  ⟨by decide, by decide,
    (drain_defers_new_functors 7 demoMid (by decide)).2 demoAfter (by decide)⟩

/-! ## Termination of the loop -/

/-- When the `while` loop returns, the quitting flag is set and the looping flag is clear. -/
theorem whileNotQuit_ok (tid : Nat) (polls : List (List Channel)) :
    ∀ s t : EventLoop, EventLoop.whileNotQuit tid polls s = Run.ok t →
      t.quit_ = true ∧ t.looping_ = false := by
  induction polls with
  | nil =>
    intro s t h
    simp only [EventLoop.whileNotQuit] at h
    split at h
    · have := (Run.ok.inj h).symm
      subst this
      exact ⟨by assumption, rfl⟩
    · simp at h
  | cons ready more ih =>
    intro s t h
    simp only [EventLoop.whileNotQuit] at h
    split at h
    · have := (Run.ok.inj h).symm
      subst this
      exact ⟨by assumption, rfl⟩
    · obtain ⟨u, _, hu⟩ := bind_eq_ok h
      exact ih u t hu

/-- With the quitting flag set the `while` loop body is not entered. -/
theorem whileNotQuit_quit (tid : Nat) (polls : List (List Channel)) (s : EventLoop)
    (hq : s.quit_ = true) :
    EventLoop.whileNotQuit tid polls s = Run.ok { s with looping_ := false } := by
  cases polls <;> simp [EventLoop.whileNotQuit, hq]

/-- With the quitting flag clear the `while` loop runs one more iteration. -/
theorem whileNotQuit_cons (tid : Nat) (ready : List Channel) (more : List (List Channel))
    (s : EventLoop) (hq : s.quit_ = false) :
    EventLoop.whileNotQuit tid (ready :: more) s =
      (EventLoop.iteration tid ready s).bind (EventLoop.whileNotQuit tid more) := by
  simp [EventLoop.whileNotQuit, hq]

/-- Entered on the owning thread with the looping flag clear, `loop()` sets the flag and runs
the `while` loop. -/
theorem loop_eq (tid : Nat) (polls : List (List Channel)) (s : EventLoop)
    (hth : s.isInLoopThread tid = true) (hl : s.looping_ = false) :
    s.loop tid polls = EventLoop.whileNotQuit tid polls { s with looping_ := true } := by
  unfold EventLoop.loop
  rw [assertInLoopThread_in s tid hth]
  simp [hl, Run.bind]

/-- Full iterations run with the quitting flag clear are a prefix of the `while` loop. -/
theorem whileNotQuit_append (tid : Nat) (before rest : List (List Channel)) :
    ∀ s u : EventLoop, topAfter tid before s = some u →
      EventLoop.whileNotQuit tid (before ++ rest) s = EventLoop.whileNotQuit tid rest u := by
  induction before with
  | nil =>
    intro s u h
    simp only [topAfter, Option.some.injEq] at h
    subst h
    rfl
  | cons ready more ih =>
    intro s u h
    simp only [topAfter] at h
    split at h
    · simp at h
    · rename_i hq
      have hq2 : s.quit_ = false := by simpa using hq
      rw [List.cons_append, whileNotQuit_cons tid ready _ s hq2]
      split at h
      · rename_i s1 hs1
        rw [hs1]
        exact ih s1 u h
      · simp at h

/-- C6: in every iteration of `loop()`, the first or a later one (`before` holds the
readiness reports of the full iterations run before it), in which the quitting flag is clear
at the top and set by the time the dispatch ends (a handler called `quit()`), every ready
channel of the iteration has still been dispatched, the drain still calls every functor that
is in the queue when it starts, and after the drain `loop()` returns, having called the
poller once in this iteration and never again, whatever further readiness (`more`) the
poller would report. -/
theorem quit_is_cooperative (tid : Nat) (before : List (List Channel)) (ready : List Channel)
    (more : List (List Channel)) (s0 s m t : EventLoop)
    (hth : s0.isInLoopThread tid = true) (hl : s0.looping_ = false)
    (htop : topAfter tid before { s0 with looping_ := true } = some s)
    (hq : s.quit_ = false)
    (hH : EventLoop.handleActive tid ready s = Run.ok m)
    (hquit : m.quit_ = true) (hD : m.doPendingFunctors tid = Run.ok t) :
    handled m.trace = handled s.trace ++ ready.map (fun c => c.ptr.addr) ∧
      drained t.trace = drained m.trace ++ m.pendingFunctors_.map (fun f => f.id) ∧
      EventLoop.whileNotQuit tid (ready :: more) s = Run.ok { t with looping_ := false } ∧
      s0.loop tid (before ++ ready :: more) = Run.ok { t with looping_ := false } ∧
      pollCalls t.trace = pollCalls s.trace + 1 := by
  obtain ⟨hs, a1, a2, _, a4, _⟩ := handleActive_ok hH
  obtain ⟨ds, b1, _, b3, b4, b5, _⟩ := doPendingFunctors_ok hD
  have hw : EventLoop.whileNotQuit tid (ready :: more) s =
      Run.ok { t with looping_ := false } := by
    rw [whileNotQuit_cons tid ready more s hq]
    unfold EventLoop.iteration
    rw [hH]
    simp only [Run.bind]
    rw [hD]
    simp only [Run.bind]
    exact whileNotQuit_quit tid more t (b5 hquit)
  refine ⟨?_, ?_, hw, ?_, ?_⟩
  · rw [a1]
    have : handled (Event.poll :: hs) = handled hs := by simp [handled, Event.handledAddr]
    rw [handled_append, this, a2]
  · rw [b1, drained_append, b3]
  · rw [loop_eq tid _ s0 hth hl, whileNotQuit_append tid before (ready :: more) _ s htop, hw]
  · rw [b1, a1, pollCalls_append, pollCalls_append, b4]
    have : pollCalls (Event.poll :: hs) = pollCalls hs + 1 := by simp [pollCalls]
    rw [this, a4]

/-- Instance of C6: the first iteration runs in full with the quitting flag clear; in the
second iteration `quit()` is called by the handler of the first of two ready channels, the
second channel is still dispatched, the drain still calls functors 7 and 6, and `loop()`
returns without asking the poller for the third readiness report. -/
theorem quit_is_cooperative_witness :
    topAfter 7 [[chanB]] demoRunning = some demoTop2 ∧
      demoTop2.quit_ = false ∧ demoMid2.quit_ = true ∧
      demoQueued.loop 7 [[chanB], demoReady, [chanB]] =
        Run.ok { demoAfter2 with looping_ := false } ∧
      drained demoAfter2.trace = drained demoMid2.trace ++ [7, 6] ∧
      pollCalls demoAfter2.trace = pollCalls demoTop2.trace + 1 :=
  have h := quit_is_cooperative 7 [[chanB]] demoReady [[chanB]] demoQueued demoTop2 demoMid2
    demoAfter2 (by decide) (by decide) (by decide) (by decide) (by decide) (by decide)
    (by decide)
  ⟨by decide, by decide, by decide, h.2.2.2.1, h.2.1, h.2.2.2.2⟩

/-- C10: when `loop()` is entered on the owning thread with the quitting flag already set
(and, as on every first or repeated entry, the looping flag clear), it returns at once in
the state it was entered in: no poll, no dispatch, no drain, the queue untouched, the
looping flag clear.  This is the state in which any earlier `loop()` has returned, so a
second call of `loop()` is such an entry. -/
theorem loop_when_quit_set (tid : Nat) (polls : List (List Channel)) (s : EventLoop)
    (hth : s.isInLoopThread tid = true) (hl : s.looping_ = false) (hq : s.quit_ = true) :
    s.loop tid polls = Run.ok s ∧
      ∀ (polls2 : List (List Channel)) (t : EventLoop),
        s.loop tid polls = Run.ok t → t.loop tid polls2 = Run.ok t := by
  have key : ∀ (p : List (List Channel)), s.loop tid p = Run.ok s := by
    intro p
    rw [loop_eq tid p s hth hl, whileNotQuit_quit tid p _ (by exact hq)]
    cases s
    simp_all
  refine ⟨key polls, ?_⟩
  intro polls2 t ht
  rw [key polls] at ht
  have := (Run.ok.inj ht).symm
  subst this
  exact key polls2

/-- Instance of C10: `loop()` called again on the loop that has returned. -/
theorem loop_when_quit_set_witness :
    demoStopped.quit_ = true ∧ demoStopped.loop 7 [[chanB]] = Run.ok demoStopped :=
  ⟨by decide,
    (loop_when_quit_set 7 [[chanB]] demoStopped (by decide) (by decide) (by decide)).1⟩

/-! ## Channel registration and removal -/

/-- C7: for a channel owned by this loop, `removeChannel` on the owning thread in
event-handling mode reaches `poller_->removeChannel` exactly when the channel is the one
being dispatched or is not in `activeChannels_`; otherwise the assertion fails in the
state of the call, with the poller untouched.  Outside event-handling mode the removal
always reaches the poller. -/
theorem removeChannel_safety (tid : Nat) (channel : ChannelPtr) (s : EventLoop)
    (hown : channel.ownerLoop = s.self) (hth : s.isInLoopThread tid = true) :
    (s.eventHandling_ = true →
      ((s.currentActiveChannel_ = some channel.addr ∨
            channel.addr ∉ s.activeChannels_.map (fun c => c.ptr.addr)) →
          s.removeChannel tid channel =
            Run.ok { s with trace := s.trace ++ [Event.pollerRemove channel.addr] }) ∧
      (¬ (s.currentActiveChannel_ = some channel.addr ∨
            channel.addr ∉ s.activeChannels_.map (fun c => c.ptr.addr)) →
          s.removeChannel tid channel = Run.aborted s) ∧
      ((∃ t, s.removeChannel tid channel = Run.ok t) ↔
          (s.currentActiveChannel_ = some channel.addr ∨
            channel.addr ∉ s.activeChannels_.map (fun c => c.ptr.addr)))) ∧
    (s.eventHandling_ = false →
      s.removeChannel tid channel =
        Run.ok { s with trace := s.trace ++ [Event.pollerRemove channel.addr] }) := by
  unfold EventLoop.removeChannel
  rw [assertInLoopThread_in s tid hth]
  simp only [hown, if_true, Run.bind]
  constructor
  · intro he
    by_cases hc : s.currentActiveChannel_ = some channel.addr ∨
        channel.addr ∉ s.activeChannels_.map (fun c => c.ptr.addr)
    · have e : ¬ (s.eventHandling_ = true ∧ ¬ (s.currentActiveChannel_ = some channel.addr ∨
          channel.addr ∉ s.activeChannels_.map (fun c => c.ptr.addr))) := fun h => h.2 hc
      rw [if_neg e]
      exact ⟨fun _ => rfl, fun h => absurd hc h, ⟨fun _ => hc, fun _ => ⟨_, rfl⟩⟩⟩
    · have e : s.eventHandling_ = true ∧ ¬ (s.currentActiveChannel_ = some channel.addr ∨
          channel.addr ∉ s.activeChannels_.map (fun c => c.ptr.addr)) := ⟨he, hc⟩
      rw [if_pos e]
      refine ⟨fun h => absurd h hc, fun _ => rfl, ⟨?_, fun h => absurd h hc⟩⟩
      rintro ⟨t, ht⟩
      simp at ht
  · intro he
    have e : ¬ (s.eventHandling_ = true ∧ ¬ (s.currentActiveChannel_ = some channel.addr ∨
        channel.addr ∉ s.activeChannels_.map (fun c => c.ptr.addr))) := by
      rw [he]
      exact fun h => Bool.noConfusion h.1
    rw [if_neg e]

/-- Instance of C7: inside the handler of channel 10, with channels 10 and 11 ready,
removing 10 or the absent channel 12 reaches the poller, removing 11 aborts. -/
theorem removeChannel_safety_witness :
    demoDispatching.removeChannel 7 ⟨10, 1⟩ =
        Run.ok { demoDispatching with
                 trace := demoDispatching.trace ++ [Event.pollerRemove 10] } ∧
      demoDispatching.removeChannel 7 ⟨12, 1⟩ =
        Run.ok { demoDispatching with
                 trace := demoDispatching.trace ++ [Event.pollerRemove 12] } ∧
      demoDispatching.removeChannel 7 ⟨11, 1⟩ = Run.aborted demoDispatching ∧
      demoQueued.removeChannel 7 ⟨11, 1⟩ =
        Run.ok { demoQueued with trace := demoQueued.trace ++ [Event.pollerRemove 11] } :=
  ⟨((removeChannel_safety 7 ⟨10, 1⟩ demoDispatching (by decide) (by decide)).1
      (by decide)).1 (by decide),
   ((removeChannel_safety 7 ⟨12, 1⟩ demoDispatching (by decide) (by decide)).1
      (by decide)).1 (by decide),
   ((removeChannel_safety 7 ⟨11, 1⟩ demoDispatching (by decide) (by decide)).1
      (by decide)).2.1 (by decide),
   (removeChannel_safety 7 ⟨11, 1⟩ demoQueued (by decide) (by decide)).2 (by decide)⟩

/-- A channel recorded as owned by another loop never reaches the poller. -/
theorem wrong_owner_is_fatal (tid : Nat) (channel : ChannelPtr) (s : EventLoop)
    (hown : channel.ownerLoop ≠ s.self) :
    s.updateChannel tid channel = Run.aborted s ∧
      s.removeChannel tid channel = Run.aborted s := by
  simp [EventLoop.updateChannel, EventLoop.removeChannel, hown]

/-- C8: `loop()`, `updateChannel` and `removeChannel` called from a thread other than the
owning one end the process in the state of the call (the looping flag is not set, nothing is
added to the trace, so the poller is never reached and no iteration runs), and
`updateChannel` and `removeChannel` called on any thread with a channel whose recorded owner
is another loop likewise end the process in the state of the call. -/
theorem wrong_access_is_fatal (tid : Nat) (channel : ChannelPtr)
    (polls : List (List Channel)) (s : EventLoop) :
    (s.isInLoopThread tid = false →
      s.loop tid polls = Run.aborted s ∧
        s.updateChannel tid channel = Run.aborted s ∧
        s.removeChannel tid channel = Run.aborted s) ∧
    (channel.ownerLoop ≠ s.self →
      s.updateChannel tid channel = Run.aborted s ∧
        s.removeChannel tid channel = Run.aborted s) := by
  refine ⟨fun hth => ⟨?_, ?_, ?_⟩, wrong_owner_is_fatal tid channel s⟩
  · unfold EventLoop.loop
    rw [assertInLoopThread_out s tid hth]
    split <;> rfl
  · unfold EventLoop.updateChannel
    rw [assertInLoopThread_out s tid hth]
    split <;> rfl
  · unfold EventLoop.removeChannel
    rw [assertInLoopThread_out s tid hth]
    split <;> rfl

/-- Instance of C8: thread 8 is not the owner of `demoLoop` (thread 7 is), and channel 10 is
recorded as owned by loop 1 where asked from thread 8, by loop 2 where asked from thread 7. -/
theorem wrong_access_is_fatal_witness :
    demoLoop.isInLoopThread 8 = false ∧
      demoLoop.loop 8 [demoReady] = Run.aborted demoLoop ∧
      demoLoop.updateChannel 8 ⟨10, 1⟩ = Run.aborted demoLoop ∧
      demoLoop.removeChannel 8 ⟨10, 1⟩ = Run.aborted demoLoop ∧
      demoLoop.updateChannel 7 ⟨10, 2⟩ = Run.aborted demoLoop ∧
      demoLoop.removeChannel 7 ⟨10, 2⟩ = Run.aborted demoLoop :=
  have h1 := (wrong_access_is_fatal 8 ⟨10, 1⟩ [demoReady] demoLoop).1 (by decide)
  have h2 := (wrong_access_is_fatal 7 ⟨10, 2⟩ [demoReady] demoLoop).2 (by decide)
  ⟨by decide, h1.1, h1.2.1, h1.2.2, h2.1, h2.2⟩

/-! ## Construction -/

/-- Construction completes whatever the thread-local registration holds, as long as the
wakeup descriptor can be created. -/
theorem construct_completes (this : Nat) (evtfd : Int) (wakeupChannel : Nat)
    (ctx : ThreadCtx) (hfd : 0 ≤ evtfd) :
    ∃ ctx2, construct this evtfd wakeupChannel ctx = some ctx2 ∧
      ctx2.live = ctx.live ++
        [{ EventLoop.init this ctx.tid evtfd with
           trace := [Event.pollerUpdate wakeupChannel] }] := by
  have h1 : createEventfd evtfd = some evtfd := by
    unfold createEventfd
    rw [if_neg (by omega)]
  have h2 : Channel.enableReading ctx.tid ⟨wakeupChannel, this⟩
      (EventLoop.init this ctx.tid evtfd) =
      Run.ok { EventLoop.init this ctx.tid evtfd with
               trace := [Event.pollerUpdate wakeupChannel] } := by
    simp [Channel.enableReading, EventLoop.updateChannel, EventLoop.assertInLoopThread,
      EventLoop.isInLoopThread, EventLoop.init, Run.bind]
  unfold construct
  rw [h1]
  dsimp only
  rw [h2]
  by_cases h3 : ctx.t_loopInThisThread.isSome = true <;> simp [h3]

/-- C5, evaluated: on a thread that already owns loop 1, the construction of loop 2
completes, registers the wakeup channel of loop 2 with its poller, and leaves two live
loops on the thread. -/
theorem second_construction_completes :
    (construct 1 3 20 demoCtx).bind (construct 2 4 21) =
      some { tid := 7, t_loopInThisThread := some 1,
             live := [{ EventLoop.init 1 7 3 with trace := [Event.pollerUpdate 20] },
                      { EventLoop.init 2 7 4 with trace := [Event.pollerUpdate 21] }] } := by
  decide

/-- Destroying the second loop clears the registration although the first loop is still
alive on the thread. -/
theorem destroy_clears_registration :
    ((construct 1 3 20 demoCtx).bind (construct 2 4 21)).bind
        (destroy { EventLoop.init 2 7 4 with trace := [Event.pollerUpdate 21] } 21) =
      some { tid := 7, t_loopInThisThread := none,
             live := [{ EventLoop.init 1 7 3 with trace := [Event.pollerUpdate 20] }] } := by
  decide

/-! ## Timers -/

/-- C9: `runAt` is `addTimer(cb, time, 0.0)`, `runAfter` is `runAt` at `addTime(now, delay)`,
`runEvery` is `addTimer(cb, addTime(now, interval), interval)`; each returns the identity the
timer engine returns and changes no member of the loop other than the timer engine. -/
theorem timer_facade_delegates (now : Timestamp) (addTime : Timestamp → Double → Timestamp)
    (time : Timestamp) (delay interval : Double) (cb : PendingFunctor) (s : EventLoop) :
    s.runAt time cb =
        ((s.timerQueue_.addTimer cb time Double.zero).1,
         { s with timerQueue_ := (s.timerQueue_.addTimer cb time Double.zero).2 }) ∧
      s.runAfter now addTime delay cb = s.runAt (addTime now delay) cb ∧
      s.runAfter now addTime delay cb =
        ((s.timerQueue_.addTimer cb (addTime now delay) Double.zero).1,
         { s with
           timerQueue_ := (s.timerQueue_.addTimer cb (addTime now delay) Double.zero).2 }) ∧
      s.runEvery now addTime interval cb =
        ((s.timerQueue_.addTimer cb (addTime now interval) interval).1,
         { s with
           timerQueue_ := (s.timerQueue_.addTimer cb (addTime now interval) interval).2 }) :=
  ⟨rfl, rfl, rfl, rfl⟩

end Reactor
